import Mathlib

/-!
Verification development for the `dotEnv.py` parser: a shallow embedding of
the lexer (`__tokenize__` and its scan routines), the token parser
(`__parser__`), the flatten/nest engine (`flatten_nested_dict`, `__nest__`),
serialization (`__str__`) and export (`environment`), together with theorems
about the behaviour of these functions.

Conventions of the embedding:
* Python strings are modelled as `List Char` (`Str`); `str` indexing that can
  raise `IndexError` is modelled by `pyIndex`, which returns `Except`.
* The scanning loops of the source mutate `self.current` and a cursor
  character `ch`; they are rendered as recursive functions over an explicit
  fuel argument (one unit per loop iteration; the top-level callers pass
  `length + 1`, which is enough fuel for every loop that terminates in
  Python, so fuel exhaustion models Python-level divergence).
* Reads that Python guards with `if self.current < self.maxLength` keep the
  previous `ch` when out of range; this is `List.getD` with the old `ch` as
  the default.
* Exceptions propagate as `Except.error`; `exBind` is exception-propagating
  sequencing.
-/

namespace DotEnvPy

/-- Python strings, modelled as lists of characters. -/
abbrev Str := List Char

/-- The backtick character `Token.RAW.value` of the source. -/
def rawQuote : Char := Char.ofNat 96

/-- The single-quote character. -/
def singleQuoteCh : Char := Char.ofNat 39

/-- `TokenKind` enum of the source. -/
inductive TokenKind where
  | Text
  | Number
  | ENV
  | Equal
  | Comment
  | Commas
  | Array
  | JSON
  | Tuple
  | Brackets
  | EOF
  | Hash
deriving DecidableEq, Repr

/-- `EnvToken`: a token kind together with its captured text. -/
structure EnvToken where
  kind : TokenKind
  value : Str
deriving DecidableEq, Repr

/-- `is_numeric`: `"0" <= ch <= "9"`. -/
def is_numeric (ch : Char) : Bool :=
  decide ('0' ≤ ch) && decide (ch ≤ '9')

/-- `is_letter`: ASCII letters, or any character with `ch >= "\xff"`
(code point at least 255). -/
def is_letter (ch : Char) : Bool :=
  (decide ('a' ≤ ch) && decide (ch ≤ 'z'))
    || (decide ('A' ≤ ch) && decide (ch ≤ 'Z'))
    || decide (Char.ofNat 255 ≤ ch)

/-- `is_whitespace`: newline, space, carriage return or tab. -/
def is_whitespace (ch : Char) : Bool :=
  ch == '\n' || ch == ' ' || ch == '\r' || ch == '\t'

/-- Python's `str.isalpha`, modelled on the ASCII range.  The source uses it
only inside `__parser_key__`; every theorem below that depends on the scanned
identifier text applies it to ASCII input, where this model is exact. -/
def pyIsAlpha (ch : Char) : Bool :=
  (decide ('a' ≤ ch) && decide (ch ≤ 'z')) || (decide ('A' ≤ ch) && decide (ch ≤ 'Z'))

/-- Python's `str.isdigit`, modelled on the ASCII range. -/
def pyIsDigit (ch : Char) : Bool :=
  decide ('0' ≤ ch) && decide (ch ≤ '9')

/-- The `Stack` class: a plain counter. -/
structure Stack where
  stack : Int
deriving DecidableEq, Repr

/-- `Stack.__push__`, the list of opening brackets. -/
def Stack.pushChars : Str := ['{', '[', '(', '<']

/-- `Stack.__pop__`, the list of closing brackets.  The source defines it but
`Stack.pop` never consults it. -/
def Stack.popChars : Str := ['}', ']', ')', '>']

/-- `Stack.push`: increment when `ch` is an opening bracket. -/
def Stack.push (s : Stack) (ch : Char) : Stack :=
  if ch ∈ Stack.pushChars then { stack := s.stack + 1 } else s

/-- `Stack.pop`: the source tests `ch in self.__push__` (not `__pop__`), so a
closing bracket never decrements the counter. -/
def Stack.pop (s : Stack) (ch : Char) : Stack :=
  if ch ∈ Stack.pushChars then { stack := s.stack - 1 } else s

/-- `Stack.balance`. -/
def Stack.balance (s : Stack) : Bool :=
  s.stack == 0

/-- Python string indexing `content[i]`: `IndexError` when out of range. -/
def pyIndex (content : Str) (i : Nat) : Except String Char :=
  match content.get? i with
  | some c => Except.ok c
  | none => Except.error "IndexError"

/-- Exception-propagating sequencing for `Except String`. -/
def exBind {α β : Type} (x : Except String α) (f : α → Except String β) : Except String β :=
  match x with
  | Except.error e => Except.error e
  | Except.ok a => f a

/-- Loop of `__parser_number__`: scan a run of digits and dots, counting the
dots.  State: remaining fuel, `self.current`, the cursor character `ch`, the
captured `value` and the dot count; returns `(value, dot, current)`. -/
def numberLoop (content : Str) : Nat → Nat → Char → Str → Nat → Str × Nat × Nat
  | 0, current, _, value, dot => (value, dot, current)
  | fuel + 1, current, ch, value, dot =>
    if current < content.length then
      if is_numeric ch || ch == '.' then
        numberLoop content fuel (current + 1) (content.getD (current + 1) ch)
          (value ++ [ch]) (if ch == '.' then dot + 1 else dot)
      else (value, dot, current)
    else (value, dot, current)

/-- `__parser_number__`: emit `Text` when the literal holds more than one dot,
otherwise `Number`.  Returns the token and the final `self.current`. -/
def parser_number (content : Str) (current : Nat) : Except String (EnvToken × Nat) :=
  exBind (pyIndex content current) fun ch =>
    let r := numberLoop content (content.length + 1) current ch [] 0
    if r.2.1 > 1 then Except.ok (⟨TokenKind.Text, r.1⟩, r.2.2)
    else Except.ok (⟨TokenKind.Number, r.1⟩, r.2.2)

/-- Loop of `__parser_key__`: scan a run of alphanumeric characters. -/
def keyLoop (content : Str) : Nat → Nat → Char → Str → Str × Nat
  | 0, current, _, value => (value, current)
  | fuel + 1, current, ch, value =>
    if current < content.length then
      if pyIsAlpha ch || pyIsDigit ch then
        keyLoop content fuel (current + 1) (content.getD (current + 1) ch) (value ++ [ch])
      else (value, current)
    else (value, current)

/-- `__parser_key__`: scan an identifier, emit an `ENV` token. -/
def parser_key (content : Str) (current : Nat) : Except String (EnvToken × Nat) :=
  exBind (pyIndex content current) fun ch =>
    let r := keyLoop content (content.length + 1) current ch []
    Except.ok (⟨TokenKind.ENV, r.1⟩, r.2)

/-- Loop of `__parser_string__`: scan until the closing quote.  The in-loop
read `ch = self.content[self.current]` is unguarded in the source, so it can
raise `IndexError`. -/
def stringLoop (content : Str) (entry : Char) :
    Nat → Nat → Char → Str → Except String (Str × Nat)
  | 0, current, _, value => Except.ok (value, current)
  | fuel + 1, current, ch, value =>
    if current < content.length then
      if ch != entry then
        exBind (pyIndex content (current + 1)) fun ch' =>
          stringLoop content entry fuel (current + 1) ch' (value ++ [ch])
      else Except.ok (value, current)
    else Except.ok (value, current)

/-- `__parser_string__`: quoted string scan.  The initial read
`self.content[self.current]` after the increment is also unguarded. -/
def parser_string (content : Str) (entry : Char) (current : Nat) :
    Except String (EnvToken × Nat) :=
  exBind (pyIndex content (current + 1)) fun ch =>
    exBind (stringLoop content entry (content.length + 1) (current + 1) ch []) fun r =>
      Except.ok (⟨TokenKind.Text, r.1⟩, r.2 + 1)

/-- Loop of `__parser_raw_string__`: scan until a backtick; the in-loop read
is bounds-guarded (keeping the previous `ch` when out of range). -/
def rawLoop (content : Str) : Nat → Nat → Char → Str → Str × Nat
  | 0, current, _, value => (value, current)
  | fuel + 1, current, ch, value =>
    if current < content.length then
      if ch != rawQuote then
        rawLoop content fuel (current + 1) (content.getD (current + 1) ch) (value ++ [ch])
      else (value, current)
    else (value, current)

/-- `__parser_raw_string__`: backtick-delimited scan.  The initial read
`self.content[self.current]` at `current + 1` is unguarded. -/
def parser_raw_string (content : Str) (current : Nat) : Except String (EnvToken × Nat) :=
  exBind (pyIndex content (current + 1)) fun ch =>
    let r := rawLoop content (content.length + 1) (current + 1) ch []
    Except.ok (⟨TokenKind.Text, r.1⟩, r.2 + 1)

/-- Loop of `__parser_comment__`: scan to end of line. -/
def commentLoop (content : Str) : Nat → Nat → Char → Str → Str × Nat
  | 0, current, _, value => (value, current)
  | fuel + 1, current, ch, value =>
    if current < content.length then
      if ch != '\n' then
        commentLoop content fuel (current + 1) (content.getD (current + 1) ch) (value ++ [ch])
      else (value, current)
    else (value, current)

/-- `__parser_comment__`: the initial read `self.content[self.current]` is
unguarded (it raises when `#` ends the input). -/
def parser_comment (content : Str) (current : Nat) : Except String (EnvToken × Nat) :=
  exBind (pyIndex content current) fun ch =>
    let r := commentLoop content (content.length + 1) current ch []
    Except.ok (⟨TokenKind.Comment, r.1⟩, r.2)

/-- Loop of `__parser_json__`: capture characters, driving the `Stack` counter
from `{` and `}`, until the counter balances or the input ends. -/
def jsonLoop (content : Str) : Nat → Nat → Char → Stack → Str → Str × Nat
  | 0, current, _, _, value => (value, current)
  | fuel + 1, current, ch, stack, value =>
    if current < content.length then
      let value' := value ++ [ch]
      let stack' :=
        if ch == '{' then stack.push ch else stack
      let stack'' :=
        if ch == '}' then stack'.pop ch else stack'
      if stack''.balance then (value', current)
      else
        jsonLoop content fuel (current + 1) (content.getD (current + 1) ch) stack'' value'
    else (value, current)

/-- `__parser_json__`: emit a `JSON` token with the captured text. -/
def parser_json (content : Str) (current : Nat) : Except String (EnvToken × Nat) :=
  exBind (pyIndex content current) fun ch =>
    let r := jsonLoop content (content.length + 1) current ch ⟨0⟩ []
    Except.ok (⟨TokenKind.JSON, r.1⟩, r.2 + 1)

/-- The dispatch loop of `__tokenize__`.  One unit of fuel per iteration;
fuel exhaustion corresponds to the source looping forever (which happens when
`__parser_key__` makes no progress on a non-alphanumeric character that
`is_letter` accepted). -/
def tokenizeGo (content : Str) : Nat → Nat → Except String (List EnvToken)
  | 0, _ => Except.error "maximum recursion depth exceeded"
  | fuel + 1, current =>
    if current < content.length then
      let ch := content.getD current ' '
      if is_numeric ch then
        exBind (parser_number content current) fun r =>
          exBind (tokenizeGo content fuel r.2) fun toks =>
            Except.ok (r.1 :: toks)
      else if is_letter ch then
        exBind (parser_key content current) fun r =>
          exBind (tokenizeGo content fuel r.2) fun toks =>
            Except.ok (r.1 :: toks)
      else if ch == '#' then
        exBind (parser_comment content (current + 1)) fun r =>
          exBind (tokenizeGo content fuel r.2) fun toks =>
            Except.ok (⟨TokenKind.Hash, [ch]⟩ :: r.1 :: toks)
      else if ch == '"' || ch == singleQuoteCh then
        exBind (parser_string content ch current) fun r =>
          exBind (tokenizeGo content fuel r.2) fun toks =>
            Except.ok (r.1 :: toks)
      else if ch == rawQuote then
        exBind (parser_raw_string content current) fun r =>
          exBind (tokenizeGo content fuel r.2) fun toks =>
            Except.ok (r.1 :: toks)
      else if ch == '[' || ch == ']' then
        exBind (tokenizeGo content fuel (current + 1)) fun toks =>
          Except.ok (⟨TokenKind.Brackets, [ch]⟩ :: toks)
      else if ch == '{' then
        exBind (parser_json content current) fun r =>
          exBind (tokenizeGo content fuel r.2) fun toks =>
            Except.ok (r.1 :: toks)
      else if ch == ',' then
        exBind (tokenizeGo content fuel (current + 1)) fun toks =>
          Except.ok (⟨TokenKind.Commas, [ch]⟩ :: toks)
      else if ch == '=' then
        exBind (tokenizeGo content fuel (current + 1)) fun toks =>
          Except.ok (⟨TokenKind.Equal, [ch]⟩ :: toks)
      else if is_whitespace ch then
        tokenizeGo content fuel (current + 1)
      else
        tokenizeGo content fuel (current + 1)
    else Except.ok []

/-- `__tokenize__`: scan the whole text. -/
def tokenizeDotENV (content : Str) : Except String (List EnvToken) :=
  tokenizeGo content (content.length + 1) 0

/-- The Python values the parser stores: `float(...)` results (carrying the
literal they were converted from — equal literals give equal floats), JSON
integers, strings, lists, dicts, booleans and `None`. -/
inductive Value where
  | pyFloat (lit : Str)
  | pyInt (n : Int)
  | str (s : Str)
  | arr (elems : List Value)
  | obj (fields : List (Str × Value))
  | bool (b : Bool)
  | null
deriving Repr

/-- A value that is neither a dict nor a list (a flatten leaf). -/
def isLeaf : Value → Bool
  | Value.obj _ => false
  | Value.arr _ => false
  | _ => true

/-- Python `dict` assignment `d[k] = v`: overwrite in place when the key is
present, append otherwise. -/
def pyDictSet : List (Str × Value) → Str → Value → List (Str × Value)
  | [], k, v => [(k, v)]
  | (k', v') :: rest, k, v =>
    if k' = k then (k', v) :: rest else (k', v') :: pyDictSet rest k v

/-- Python `dict(items)`: fold the pairs into a dict, later pairs overwriting
earlier ones with the same key. -/
def dictOf (items : List (Str × Value)) : List (Str × Value) :=
  items.foldl (fun acc kv => pyDictSet acc kv.1 kv.2) []

/-- Decimal digits of a nonnegative number. -/
def digitsToNat (ds : Str) : Option Nat :=
  if ds ≠ [] ∧ ds.all is_numeric then
    some (ds.foldl (fun a c => a * 10 + (c.toNat - 48)) 0)
  else none

/-- Integer literal, possibly with a leading minus sign. -/
def strToInt (s : Str) : Option Int :=
  match s with
  | '-' :: ds => (digitsToNat ds).map (fun n => -(n : Int))
  | ds => (digitsToNat ds).map (fun n => (n : Int))

/-- JSON whitespace. -/
def jsonWs (c : Char) : Bool :=
  c == ' ' || c == '\n' || c == '\t' || c == '\r'

/-- Modelled from the spec: the string scan of the standard JSON decoder
(`json.loads`, external to the repository).  Reads the characters after an
opening quote up to the closing quote; escape sequences are not modelled
(none of the inputs considered here contain them). -/
def jsonString (s : Str) : Except String (Str × Str) :=
  let content := s.takeWhile (fun c => c != '"' && c != '\\')
  match s.drop content.length with
  | '"' :: rest => Except.ok (content, rest)
  | _ => Except.error "json: unterminated string"

/-- Modelled from the spec: the numeral scan of the standard JSON decoder.
Integers decode to Python `int`, fraction/exponent numerals to `float`. -/
def jsonNumber (s : Str) : Except String (Value × Str) :=
  let lit := s.takeWhile
    (fun c => is_numeric c || c == '.' || c == '-' || c == '+' || c == 'e' || c == 'E')
  let rest := s.drop lit.length
  if lit.any (fun c => c == '.' || c == 'e' || c == 'E') then
    Except.ok (Value.pyFloat lit, rest)
  else
    match strToInt lit with
    | some n => Except.ok (Value.pyInt n, rest)
    | none => Except.error "json: invalid numeral"

mutual

/-- Modelled from the spec: value grammar of the standard JSON decoder
(`json.loads` is an external collaborator; the spec only says the blob is
"decoded with a standard JSON parser"). -/
def jsonVal : Nat → Str → Except String (Value × Str)
  | 0, _ => Except.error "json: recursion limit"
  | fuel + 1, s =>
    match s.dropWhile jsonWs with
    | [] => Except.error "json: unexpected end of input"
    | c :: rest =>
      if c == '{' then
        match rest.dropWhile jsonWs with
        | '}' :: rest' => Except.ok (Value.obj [], rest')
        | _ => jsonMembers fuel rest []
      else if c == '[' then
        match rest.dropWhile jsonWs with
        | ']' :: rest' => Except.ok (Value.arr [], rest')
        | _ => jsonElems fuel rest []
      else if c == '"' then
        exBind (jsonString rest) fun r => Except.ok (Value.str r.1, r.2)
      else if c == 't' then
        match rest with
        | 'r' :: 'u' :: 'e' :: r => Except.ok (Value.bool true, r)
        | _ => Except.error "json: invalid literal"
      else if c == 'f' then
        match rest with
        | 'a' :: 'l' :: 's' :: 'e' :: r => Except.ok (Value.bool false, r)
        | _ => Except.error "json: invalid literal"
      else if c == 'n' then
        match rest with
        | 'u' :: 'l' :: 'l' :: r => Except.ok (Value.null, r)
        | _ => Except.error "json: invalid literal"
      else if c == '-' || is_numeric c then
        jsonNumber (c :: rest)
      else Except.error "json: invalid character"

/-- Modelled from the spec: the members of a JSON object. -/
def jsonMembers : Nat → Str → List (Str × Value) → Except String (Value × Str)
  | 0, _, _ => Except.error "json: recursion limit"
  | fuel + 1, s, acc =>
    match s.dropWhile jsonWs with
    | '"' :: rest =>
      exBind (jsonString rest) fun rk =>
        match rk.2.dropWhile jsonWs with
        | ':' :: rest' =>
          exBind (jsonVal fuel rest') fun rv =>
            match rv.2.dropWhile jsonWs with
            | ',' :: rest'' => jsonMembers fuel rest'' (acc ++ [(rk.1, rv.1)])
            | '}' :: rest'' => Except.ok (Value.obj (acc ++ [(rk.1, rv.1)]), rest'')
            | _ => Except.error "json: expected comma or closing brace"
        | _ => Except.error "json: expected colon"
    | _ => Except.error "json: expected object key"

/-- Modelled from the spec: the elements of a JSON array. -/
def jsonElems : Nat → Str → List Value → Except String (Value × Str)
  | 0, _, _ => Except.error "json: recursion limit"
  | fuel + 1, s, acc =>
    exBind (jsonVal fuel s) fun rv =>
      match rv.2.dropWhile jsonWs with
      | ',' :: rest => jsonElems fuel rest (acc ++ [rv.1])
      | ']' :: rest => Except.ok (Value.arr (acc ++ [rv.1]), rest)
      | _ => Except.error "json: expected comma or closing bracket"

end

/-- Modelled from the spec: `json.loads`.  A decode failure propagates as an
error, as the Python exception would. -/
def json_loads (s : Str) : Except String Value :=
  exBind (jsonVal (s.length + 1) s) fun r =>
    if (r.2.dropWhile jsonWs).isEmpty then Except.ok r.1
    else Except.error "json: extra data"

/-- Inner loop of the `Brackets` branch of `__parser__`: collect array
elements until the next `Brackets` token (of either direction) or the end of
the token list.  `Number` tokens contribute `float(value)`, `Commas` tokens
are skipped, anything else contributes its raw text. -/
def arrayLoop (tokens : List EnvToken) :
    Nat → Nat → EnvToken → List Value → List Value × Nat
  | 0, current, _, value => (value, current)
  | fuel + 1, current, tok, value =>
    if current < tokens.length then
      if tok.kind = TokenKind.Brackets then (value, current)
      else if tok.kind = TokenKind.Number then
        arrayLoop tokens fuel (current + 1) (tokens.getD (current + 1) tok)
          (value ++ [Value.pyFloat tok.value])
      else if tok.kind = TokenKind.Commas then
        if current + 1 ≥ tokens.length then (value, current + 1)
        else arrayLoop tokens fuel (current + 1) (tokens.getD (current + 1) tok) value
      else
        arrayLoop tokens fuel (current + 1) (tokens.getD (current + 1) tok)
          (value ++ [Value.str tok.value])
    else (value, current)

/-- The main loop of `__parser__`.  State: the pending-name stack
`token_cache` (most recent first; Python appends and pops at the end), the
current assignment target `name` (empty string when unset) and the
environment dict. -/
def parserGo (tokens : List EnvToken) :
    Nat → Nat → List Str → Str → List (Str × Value) → Except String (List (Str × Value))
  | 0, _, _, _, env => Except.ok env
  | fuel + 1, current, cache, name, env =>
    if current < tokens.length then
      let tok := tokens.getD current ⟨TokenKind.EOF, []⟩
      if tok.kind = TokenKind.ENV then
        parserGo tokens fuel (current + 1) (tok.value :: cache) name env
      else if tok.kind = TokenKind.Brackets then
        if current + 1 ≥ tokens.length then Except.ok env
        else
          let r := arrayLoop tokens (tokens.length + 1) (current + 1)
            (tokens.getD (current + 1) tok) []
          if name ≠ [] then
            parserGo tokens fuel (r.2 + 1) cache [] (pyDictSet env name (Value.arr r.1))
          else
            parserGo tokens fuel (r.2 + 1) cache name env
      else if tok.kind = TokenKind.Equal then
        match cache with
        | [] => parserGo tokens fuel (current + 1) cache name env
        | n :: cache' => parserGo tokens fuel (current + 1) cache' n env
      else if tok.kind = TokenKind.Number then
        if name ≠ [] then
          parserGo tokens fuel (current + 1) cache []
            (pyDictSet env name (Value.pyFloat tok.value))
        else parserGo tokens fuel (current + 1) cache name env
      else if tok.kind = TokenKind.Text then
        if name ≠ [] then
          parserGo tokens fuel (current + 1) cache []
            (pyDictSet env name (Value.str tok.value))
        else parserGo tokens fuel (current + 1) cache name env
      else if tok.kind = TokenKind.JSON then
        if name ≠ [] then
          exBind (json_loads tok.value) fun v =>
            parserGo tokens fuel (current + 1) cache [] (pyDictSet env name v)
        else parserGo tokens fuel (current + 1) cache name env
      else parserGo tokens fuel (current + 1) cache name env
    else Except.ok env

/-- `__parser__`: consume the token list, building the environment dict. -/
def parserRun (tokens : List EnvToken) : Except String (List (Str × Value)) :=
  if tokens.isEmpty then Except.ok []
  else parserGo tokens (tokens.length + 1) 0 [] [] []

/-- `DotENV.__init__`: tokenize the text and parse the tokens. -/
def dotENVofText (text : Str) : Except String (List (Str × Value)) :=
  exBind (tokenizeDotENV text) parserRun

/-- `DotENV.__getitem__`: lookup, `KeyError` when the name is absent. -/
def dotENVget (env : List (Str × Value)) (name : Str) : Except String Value :=
  match env.lookup name with
  | some v => Except.ok v
  | none => Except.error "KeyError"

/-- `str(i)` for a list index. -/
def natStr (i : Nat) : Str := (toString i).toList

mutual

/-- `flatten_nested_dict`: walk a value, joining dict keys and stringified
list indices onto `parent_key` with the delimiter (skipping the delimiter
when `parent_key` is empty), and emit `(parent_key, leaf)` for scalars; each
recursive level rebuilds a dict from the accumulated items. -/
def flattenV (d : Str) : Value → Str → List (Str × Value)
  | Value.obj fields, parent => dictOf (flattenObjItems d fields parent)
  | Value.arr elems, parent => dictOf (flattenArrItems d elems 0 parent)
  | v, parent => [(parent, v)]

/-- The `isinstance(obj, dict)` branch of `flatten_nested_dict`. -/
def flattenObjItems (d : Str) : List (Str × Value) → Str → List (Str × Value)
  | [], _ => []
  | (k, v) :: rest, parent =>
    flattenV d v (if parent ≠ [] then parent ++ d ++ k else k)
      ++ flattenObjItems d rest parent

/-- The `isinstance(obj, list)` branch of `flatten_nested_dict`. -/
def flattenArrItems (d : Str) : List Value → Nat → Str → List (Str × Value)
  | [], _, _ => []
  | v :: rest, i, parent =>
    flattenV d v (if parent ≠ [] then parent ++ d ++ natStr i else natStr i)
      ++ flattenArrItems d rest (i + 1) parent

end

/-- One step of Python `str.split`: accumulate characters until the separator
occurs, then emit the accumulated part.  Fuel decreases once per consumed
character; the top-level caller passes `length + 1`, which always suffices
for a nonempty separator. -/
def pySplitGo (sep : Str) : Nat → Str → Str → List Str
  | 0, acc, s => [acc.reverse ++ s]
  | _ + 1, acc, [] => [acc.reverse]
  | fuel + 1, acc, c :: rest =>
    if sep.isPrefixOf (c :: rest) && !sep.isEmpty then
      acc.reverse :: pySplitGo sep fuel [] (List.drop sep.length (c :: rest))
    else
      pySplitGo sep fuel (c :: acc) rest

/-- Python `key.split(sep)` for a nonempty separator.  (Python raises
`ValueError` on an empty separator; the class delimiter is never empty in
this development.) -/
def pySplit (sep : Str) (s : Str) : List Str :=
  if sep.isEmpty then [s] else pySplitGo sep (s.length + 1) [] s

/-- The chain-building loop of `__nest__`: walk `keys[:-1]` creating nested
dicts and place the value under `keys[-1]`.  (`str.split` never returns an
empty list, so the `[]` case is unreachable.) -/
def nestChain : List Str → Value → Value
  | [], v => v
  | [k], v => Value.obj [(k, v)]
  | k :: k' :: rest, v => Value.obj [(k, nestChain (k' :: rest) v)]

/-- `__nest__`: split the key on the delimiter and build the single branch. -/
def nest (d : Str) (key : Str) (v : Value) : Value :=
  nestChain (pySplit d key) v

/-- Python `str.join` over a list of values: `TypeError` unless every item is
a `str`. -/
def pyJoinVals (sep : Str) (items : List Value) : Except String Str :=
  match items.mapM (fun v => match v with | Value.str s => some s | _ => none) with
  | some strs => Except.ok (List.intercalate sep strs)
  | none => Except.error "TypeError: sequence item: expected str instance"

/-- The line-building loop of `__str__`.  For a dict-valued entry the source
builds `temp = {key: value}`, calls `flatten_nested_dict(temp)` but drops its
result, and then iterates over the UNflattened `temp`, joining the key with
the still-nested dict; for other entries it joins the key with the raw
value.  Either join raises `TypeError` for any non-string value. -/
def strLines (d : Str) : List (Str × Value) → Except String (List Str)
  | [] => Except.ok []
  | (key, v) :: rest =>
    match v with
    | Value.obj fields =>
      let _discarded := flattenV d (Value.obj [(key, Value.obj fields)]) []
      exBind (pyJoinVals ['='] [Value.str key, Value.obj fields]) fun line =>
        exBind (strLines d rest) fun lines => Except.ok (line :: lines)
    | _ =>
      exBind (pyJoinVals ['='] [Value.str key, v]) fun line =>
        exBind (strLines d rest) fun lines => Except.ok (line :: lines)

/-- `DotENV.__str__`: join the emitted lines with newlines. -/
def dotenvStr (d : Str) (env : List (Str × Value)) : Except String Str :=
  exBind (strLines d env) fun lines => Except.ok (List.intercalate ['\n'] lines)

/-- `DotENV.environment`: flatten the whole environment dict; the loop then
performs one `os.environ[key] = value` per flattened pair.  This function
returns the pairs, i.e. the arguments of the external set-variable calls, in
order. -/
def environmentCalls (d : Str) (env : List (Str × Value)) : List (Str × Value) :=
  flattenV d (Value.obj env) []

/-- `DotENV.environment`, including the semantics of the external sink:
`os.environ[key] = value` requires `value` to be a `str` and raises
`TypeError` otherwise (modelled from the Python standard library). -/
def environmentRun (d : Str) (env : List (Str × Value)) :
    Except String (List (Str × Str)) :=
  (environmentCalls d env).mapM fun kv =>
    match kv.2 with
    | Value.str s => Except.ok (kv.1, s)
    | _ => Except.error "TypeError: str expected"

@[simp] theorem exBind_ok {α β : Type} (a : α) (f : α → Except String β) :
    exBind (Except.ok a) f = f a := rfl

@[simp] theorem exBind_error {α β : Type} (e : String) (f : α → Except String β) :
    exBind (Except.error e : Except String α) f = Except.error e := rfl

theorem get?_of_drop {α : Type} (l : List α) (i : Nat) (x : α) (xs : List α)
    (h : l.drop i = x :: xs) : l.get? i = some x := by
  have := List.get?_drop l i 0
  rw [h] at this
  simpa using this.symm

theorem drop_succ_of_drop {α : Type} (l : List α) (i : Nat) (x : α) (xs : List α)
    (h : l.drop i = x :: xs) : l.drop (i + 1) = xs := by
  have h1 : l.drop (i + 1) = (l.drop i).drop 1 := by
    rw [List.drop_drop]
  rw [h1, h]
  rfl

theorem getD_of_drop {α : Type} (l : List α) (i : Nat) (x : α) (xs : List α)
    (d : α) (h : l.drop i = x :: xs) : l.getD i d = x := by
  have := get?_of_drop l i x xs h
  rw [show l.getD i d = (l.get? i).getD d from rfl, this]
  rfl

theorem getD_len_le {α : Type} (l : List α) (i : Nat) (d : α) (h : l.length ≤ i) :
    l.getD i d = d := by
  rw [show l.getD i d = (l.get? i).getD d from rfl, List.get?_len_le h]
  rfl

theorem numberLoop_stop (content : Str) (fuel i : Nat) (ch : Char) (value : Str) (dot : Nat)
    (h : ¬ i < content.length) :
    numberLoop content fuel i ch value dot = (value, dot, i) := by
  cases fuel with
  | zero => rfl
  | succ fuel => rw [numberLoop, if_neg h]

theorem numberLoop_run (content : Str) :
    ∀ (rest : Str) (fuel i : Nat) (ch : Char) (value : Str) (dot : Nat),
      content.drop i = ch :: rest →
      i + 1 + rest.length = content.length →
      (∀ c ∈ ch :: rest, (is_numeric c || c == '.') = true) →
      rest.length + 1 ≤ fuel →
      numberLoop content fuel i ch value dot =
        (value ++ ch :: rest, dot + (ch :: rest).count '.', content.length) := by
  intro rest
  induction rest with
  | nil =>
    intro fuel i ch value dot hdrop hlen hall hfuel
    simp only [List.length_nil] at hlen hfuel
    cases fuel with
    | zero => omega
    | succ fuel =>
      rw [numberLoop, if_pos (by omega)]
      rw [if_pos (hall ch (List.mem_cons_self ch []))]
      rw [getD_len_le content (i + 1) ch (by omega)]
      rw [numberLoop_stop content fuel (i + 1) ch (value ++ [ch]) _ (by omega)]
      have hone : ([ch] : Str).count '.' = if ch == '.' then 1 else 0 := by
        by_cases hc : ch == '.'
        · have : ch = '.' := by simpa using hc
          subst this
          simp
        · have : ch ≠ '.' := by simpa using hc
          simp [List.count_cons, this, hc]
      have hcur : i + 1 = content.length := by omega
      rw [hcur, hone]
      by_cases hc : ch == '.'
      · have hce : ch = '.' := by simpa using hc
        subst hce
        simp
      · have hce : ch ≠ '.' := by simpa using hc
        simp [hc, hce]
  | cons c rest' ih =>
    intro fuel i ch value dot hdrop hlen hall hfuel
    cases fuel with
    | zero => simp at hfuel
    | succ fuel =>
      rw [numberLoop, if_pos (by simp at hlen ⊢; omega)]
      rw [if_pos (hall ch (List.mem_cons_self ch _))]
      have hdrop' : content.drop (i + 1) = c :: rest' := drop_succ_of_drop content i ch _ hdrop
      rw [getD_of_drop content (i + 1) c rest' ch hdrop']
      rw [ih fuel (i + 1) c (value ++ [ch]) (if ch == '.' then dot + 1 else dot) hdrop'
        (by simp at hlen ⊢; omega)
        (fun x hx => hall x (List.mem_cons_of_mem ch hx))
        (by simp at hfuel ⊢; omega)]
      by_cases hc : ch == '.'
      · have hce : ch = '.' := by simpa using hc
        subst hce
        simp [List.count_cons]
        try omega
      · have hce : ch ≠ '.' := by simpa using hc
        simp [hc, hce, List.count_cons]
        try omega

theorem parser_number_run (content : Str) (i : Nat) (ch : Char) (rest : Str)
    (hdrop : content.drop i = ch :: rest)
    (hlen : i + 1 + rest.length = content.length)
    (hall : ∀ c ∈ ch :: rest, (is_numeric c || c == '.') = true) :
    parser_number content i =
      Except.ok (⟨if (ch :: rest).count '.' > 1 then TokenKind.Text else TokenKind.Number,
        ch :: rest⟩, content.length) := by
  have hpy : pyIndex content i = Except.ok ch := by
    rw [pyIndex, get?_of_drop content i ch rest hdrop]
  rw [parser_number, hpy, exBind_ok]
  rw [numberLoop_run content rest (content.length + 1) i ch [] 0 hdrop hlen hall (by omega)]
  by_cases hc : (ch :: rest).count '.' > 1
  · simp [hc]
  · simp [hc]

theorem tokenizeGo_end (content : Str) (fuel current : Nat) (h : ¬ current < content.length) :
    tokenizeGo content (fuel + 1) current = Except.ok [] := by
  rw [tokenizeGo, if_neg h]

theorem char_beq_false {c d : Char} (h : c.toNat ≠ d.toNat) : (c == d) = false := by
  rw [beq_eq_false_iff_ne]
  intro hc
  subst hc
  exact h rfl

theorem intercalate_singleton_eq (sep a : Str) : List.intercalate sep [a] = a := by
  simp [List.intercalate, List.intersperse]

theorem intercalate_cons_two (sep a b : Str) (l : List Str) :
    List.intercalate sep (a :: b :: l) = a ++ sep ++ List.intercalate sep (b :: l) := by
  simp [List.intercalate, List.intersperse]

theorem pySplitGo_shape (sep : Str) :
    ∀ (fuel : Nat) (acc s : Str), ∃ q qs, pySplitGo sep fuel acc s = (acc.reverse ++ q) :: qs := by
  intro fuel
  induction fuel with
  | zero => intro acc s; exact ⟨s, [], rfl⟩
  | succ fuel ih =>
    intro acc s
    match s with
    | [] => exact ⟨[], [], by simp [pySplitGo]⟩
    | c :: rest =>
      rw [pySplitGo]
      by_cases h : (sep.isPrefixOf (c :: rest) && !sep.isEmpty) = true
      · rw [if_pos h]
        exact ⟨[], pySplitGo sep fuel [] (List.drop sep.length (c :: rest)), by simp⟩
      · rw [if_neg h]
        obtain ⟨q, qs, hq⟩ := ih (c :: acc) rest
        refine ⟨c :: q, qs, ?_⟩
        rw [hq]
        simp

theorem pySplitGo_intercalate (sep : Str) (hsep : sep ≠ []) :
    ∀ (fuel : Nat) (s acc : Str), s.length + 1 ≤ fuel →
      List.intercalate sep (pySplitGo sep fuel acc s) = acc.reverse ++ s := by
  intro fuel
  induction fuel with
  | zero => intro s acc h; omega
  | succ fuel ih =>
    intro s acc h
    match s with
    | [] => simp [pySplitGo, intercalate_singleton_eq]
    | c :: rest =>
      rw [pySplitGo]
      by_cases hpre : (sep.isPrefixOf (c :: rest) && !sep.isEmpty) = true
      · rw [if_pos hpre]
        have hp : sep <+: c :: rest :=
          List.isPrefixOf_iff_prefix.mp (Bool.and_elim_left hpre)
        obtain ⟨t, ht⟩ := hp
        have hdrop : List.drop sep.length (c :: rest) = t := by
          rw [← ht]; exact List.drop_left sep t
        rw [hdrop]
        have hlsep : 1 ≤ sep.length := by
          cases sep with
          | nil => exact absurd rfl hsep
          | cons x xs => simp
        have hcr : (c :: rest).length = rest.length + 1 := by simp
        have hst : sep.length + t.length = rest.length + 1 := by
          have := congrArg List.length ht
          simpa using this
        have hlen : t.length + 1 ≤ fuel := by omega
        obtain ⟨q, qs, hq⟩ := pySplitGo_shape sep fuel [] t
        simp only [List.reverse_nil, List.nil_append] at hq
        rw [hq, intercalate_cons_two]
        have hih := ih t [] hlen
        rw [hq] at hih
        simp only [List.reverse_nil, List.nil_append] at hih
        rw [hih, ← ht]
        simp
      · rw [if_neg hpre]
        have hcr : (c :: rest).length = rest.length + 1 := by simp
        have hlen : rest.length + 1 ≤ fuel := by omega
        rw [ih rest (c :: acc) hlen]
        simp

theorem intercalate_pySplit (sep s : Str) (hsep : sep ≠ []) :
    List.intercalate sep (pySplit sep s) = s := by
  rw [pySplit]
  have hemp : sep.isEmpty = false := by
    cases sep with
    | nil => exact absurd rfl hsep
    | cons x xs => rfl
  rw [hemp]
  simp only [Bool.false_eq_true, if_false]
  have := pySplitGo_intercalate sep hsep (s.length + 1) s [] (le_refl _)
  simpa using this

theorem flattenV_leaf (d : Str) (v : Value) (hv : isLeaf v = true) (parent : Str) :
    flattenV d v parent = [(parent, v)] := by
  cases v with
  | obj fields => simp [isLeaf] at hv
  | arr elems => simp [isLeaf] at hv
  | pyFloat lit => rfl
  | pyInt n => rfl
  | str s => rfl
  | bool b => rfl
  | null => rfl

theorem flatten_nestChain_parent (d : Str) (v : Value) (hv : isLeaf v = true) :
    ∀ (segs : List Str) (k parent : Str), parent ≠ [] →
      flattenV d (nestChain (k :: segs) v) parent =
        [(parent ++ d ++ List.intercalate d (k :: segs), v)] := by
  intro segs
  induction segs with
  | nil =>
    intro k parent hpar
    rw [nestChain, flattenV, flattenObjItems, flattenObjItems, if_pos hpar,
      flattenV_leaf d v hv, intercalate_singleton_eq]
    rfl
  | cons k2 rest ih =>
    intro k parent hpar
    rw [nestChain, flattenV, flattenObjItems, flattenObjItems, if_pos hpar]
    have hkey : parent ++ d ++ k ≠ [] := by
      intro h
      exact hpar (List.append_eq_nil.mp (List.append_eq_nil.mp h).1).1
    rw [ih k2 (parent ++ d ++ k) hkey, intercalate_cons_two]
    simp [dictOf, pyDictSet, List.append_assoc]

theorem flatten_nestChain_root (d : Str) (v : Value) (hv : isLeaf v = true) :
    ∀ (segs : List Str) (k : Str), k ≠ [] →
      flattenV d (nestChain (k :: segs) v) [] =
        [(List.intercalate d (k :: segs), v)] := by
  intro segs k hk
  cases segs with
  | nil =>
    rw [nestChain, flattenV, flattenObjItems, flattenObjItems]
    rw [if_neg (by simp)]
    rw [flattenV_leaf d v hv, intercalate_singleton_eq]
    rfl
  | cons k2 rest =>
    rw [nestChain, flattenV, flattenObjItems, flattenObjItems]
    rw [if_neg (by simp)]
    rw [flatten_nestChain_parent d v hv rest k2 k hk, intercalate_cons_two]
    simp [dictOf, pyDictSet]

/-- Claim C1.  Contrary to the claim, the emitted JsonBlob token does NOT end
at the `}` where the brace count returns to zero: `Stack.pop` tests
membership in the push list `["{", "[", "(", "<"]`, so a `}` never
decrements the counter, the counter never returns to zero, and the blob runs
to the end of the input.  For the input `a={}x` (shape `name={J}S` with `J`
empty and `S = "x"`), the blob text is `{}x`, not `{}`; the second conjunct
shows the root cause: popping `}` from a counter at 1 leaves it at 1. -/
theorem c1_json_blob_runs_to_end_of_input :
    tokenizeDotENV ['a', '=', '{', '}', 'x'] =
      Except.ok [⟨TokenKind.ENV, ['a']⟩, ⟨TokenKind.Equal, ['=']⟩,
        ⟨TokenKind.JSON, ['{', '}', 'x']⟩] ∧
    (Stack.pop ⟨1⟩ '}').stack = 1 := ⟨rfl, rfl⟩

/-- Claim C2.  Contrary to the claim, the lexer neither bounds-checks all its
reads nor reports any UnterminatedLiteral error.  On the unterminated quoted
string `"abc` the in-loop read of `__parser_string__` goes out of range and
the run crashes with `IndexError`; on a lone backtick the initial read of
`__parser_raw_string__` likewise crashes; and on the unterminated raw string
`` `abc `` the lexer silently returns a Text token as if the literal had been
closed, reporting no error at all. -/
theorem c2_unterminated_literal_crashes_or_passes_silently :
    tokenizeDotENV ['"', 'a', 'b', 'c'] = Except.error "IndexError" ∧
    tokenizeDotENV [rawQuote] = Except.error "IndexError" ∧
    tokenizeDotENV (rawQuote :: ['a', 'b', 'c']) =
      Except.ok [⟨TokenKind.Text, ['a', 'b', 'c']⟩] := ⟨rfl, rfl, rfl⟩

/-- Claim C3, counterexample.  Parsing `a b = 1 = 2` assigns `1.0` to `b`
and then `2.0` to `a`: the later stray `=` pops the first identifier `a` off
the pending stack and makes it an assignment target, contradicting the
claim that an Identifier overwrites any previously pending name and that a
stray Equal never resurrects the first. -/
theorem c3_counterexample_stray_equal_resurrects_first_name :
    dotENVofText ['a', ' ', 'b', ' ', '=', ' ', '1', ' ', '=', ' ', '2'] =
      Except.ok [(['b'], Value.pyFloat ['1']), (['a'], Value.pyFloat ['2'])] := rfl

/-- Claim C3, amended.  The parser keeps pending names in a stack
(`token_cache`): each Identifier pushes, an Equal pops the most recently
pushed name (so with two Identifiers before a single Equal the second becomes
the target), but a later stray Equal pops and resurrects the earlier
identifier; an Equal with an empty stack has no effect. -/
theorem c3_pending_names_form_a_stack (a b v1 v2 : Str) (ha : a ≠ []) (hb : b ≠ [])
    (hab : a ≠ b) :
    parserRun [⟨TokenKind.ENV, a⟩, ⟨TokenKind.ENV, b⟩, ⟨TokenKind.Equal, ['=']⟩,
        ⟨TokenKind.Number, v1⟩, ⟨TokenKind.Equal, ['=']⟩, ⟨TokenKind.Number, v2⟩] =
      Except.ok [(b, Value.pyFloat v1), (a, Value.pyFloat v2)] ∧
    parserRun [⟨TokenKind.Equal, ['=']⟩, ⟨TokenKind.Number, v1⟩] = Except.ok [] := by
  constructor
  · obtain ⟨ca, csa, rfl⟩ := List.exists_cons_of_ne_nil ha
    obtain ⟨cb, csb, rfl⟩ := List.exists_cons_of_ne_nil hb
    rw [show parserRun [⟨TokenKind.ENV, ca :: csa⟩, ⟨TokenKind.ENV, cb :: csb⟩,
        ⟨TokenKind.Equal, ['=']⟩, ⟨TokenKind.Number, v1⟩, ⟨TokenKind.Equal, ['=']⟩,
        ⟨TokenKind.Number, v2⟩] =
      Except.ok (pyDictSet [(cb :: csb, Value.pyFloat v1)] (ca :: csa) (Value.pyFloat v2))
      from rfl]
    rw [pyDictSet, if_neg (fun h => hab h.symm)]
    rfl
  · rfl

/-- Claim C3, witness. -/
theorem c3_pending_names_form_a_stack_witness :
    parserRun [⟨TokenKind.ENV, ['a']⟩, ⟨TokenKind.ENV, ['b']⟩, ⟨TokenKind.Equal, ['=']⟩,
        ⟨TokenKind.Number, ['1']⟩, ⟨TokenKind.Equal, ['=']⟩, ⟨TokenKind.Number, ['2']⟩] =
      Except.ok [(['b'], Value.pyFloat ['1']), (['a'], Value.pyFloat ['2'])] ∧
    parserRun [⟨TokenKind.Equal, ['=']⟩, ⟨TokenKind.Number, ['1']⟩] = Except.ok [] :=
  c3_pending_names_form_a_stack ['a'] ['b'] ['1'] ['2']
    (by decide) (by decide) (by decide)

/-- Claim C4.  `environment` does flatten the mapping and performs one
external set-variable call per flattened pair, but contrary to the claim the
value is NOT converted to a string: for the mapping parsed from
`name={"a":{"b":1}}` the single call receives the raw integer leaf `1` (not
the string `"1"`), and since `os.environ` requires `str` values the run
raises `TypeError`. -/
theorem c4_export_passes_raw_leaf_not_string :
    environmentCalls ['_']
        [(['n', 'a', 'm', 'e'],
          Value.obj [(['a'], Value.obj [(['b'], Value.pyInt 1)])])] =
      [(['n', 'a', 'm', 'e', '_', 'a', '_', 'b'], Value.pyInt 1)] ∧
    environmentRun ['_']
        [(['n', 'a', 'm', 'e'],
          Value.obj [(['a'], Value.obj [(['b'], Value.pyInt 1)])])] =
      Except.error "TypeError: str expected" ∧
    Value.pyInt 1 ≠ Value.str ['1'] := ⟨rfl, rfl, fun h => nomatch h⟩

/-- Claim C5.  Contrary to the claim, serialization FAILS on a nested-Object
entry: `__str__` calls `flatten_nested_dict` but discards its result and then
joins the key with the still-nested dict, which raises `TypeError`.  Parsing
`name={"a":1}` produces such an entry and `__str__` on it errors; a
plain string entry still serializes to one `name=value` line. -/
theorem c5_serialize_fails_on_nested_object_entry :
    dotENVofText ['n', 'a', 'm', 'e', '=', '{', '"', 'a', '"', ':', '1', '}'] =
      Except.ok [(['n', 'a', 'm', 'e'], Value.obj [(['a'], Value.pyInt 1)])] ∧
    dotenvStr ['_'] [(['n', 'a', 'm', 'e'], Value.obj [(['a'], Value.pyInt 1)])] =
      Except.error "TypeError: sequence item: expected str instance" ∧
    dotenvStr ['_'] [(['x'], Value.str ['1'])] = Except.ok ['x', '=', '1'] := ⟨rfl, rfl, rfl⟩

/-- Claim C6, counterexample.  Parsing `a=]5` assigns the one-element array
`[5.0]` to `a`, not the scalar `5.0`: the stray `]` is not ignored, it starts
array collection and consumes the following Number token. -/
theorem c6_counterexample_close_bracket_starts_collection :
    dotENVofText ['a', '=', ']', '5'] =
      Except.ok [(['a'], Value.arr [Value.pyFloat ['5']])] := rfl

/-- Claim C6, amended.  A Bracket token of either direction begins array
collection: a stray `]` with no preceding unmatched `[` starts collecting
the subsequent tokens until the next Bracket token or the end of the input,
so a subsequent Number token is assigned to the pending target as a
one-element array rather than as a scalar. -/
theorem c6_any_bracket_begins_array_collection (n v : Str) (hn : n ≠ []) :
    parserRun [⟨TokenKind.ENV, n⟩, ⟨TokenKind.Equal, ['=']⟩, ⟨TokenKind.Brackets, [']']⟩,
        ⟨TokenKind.Number, v⟩] =
      Except.ok [(n, Value.arr [Value.pyFloat v])] := by
  obtain ⟨c, cs, rfl⟩ := List.exists_cons_of_ne_nil hn
  rfl

/-- Claim C6, witness. -/
theorem c6_any_bracket_begins_array_collection_witness :
    parserRun [⟨TokenKind.ENV, ['a']⟩, ⟨TokenKind.Equal, ['=']⟩, ⟨TokenKind.Brackets, [']']⟩,
        ⟨TokenKind.Number, ['5']⟩] =
      Except.ok [(['a'], Value.arr [Value.pyFloat ['5']])] :=
  c6_any_bracket_begins_array_collection ['a'] ['5'] (by decide)

/-- Claim C7.  For an input line `name=L` where `L` is a nonempty run of
digits and dots beginning with a digit: when `L` holds at most one dot the
parsed value is the Python float `float(L)` (`Value.pyFloat L` denotes
exactly that conversion applied to the literal `L`), and when `L` holds two
or more dots the stored value is the literal substring kept verbatim as
text; `get` returns that value for the name. -/
theorem c7_numeric_line_value (L : Str) (hL : L ≠ [])
    (hhead : is_numeric (L.headD ' ') = true)
    (hall : ∀ c ∈ L, (is_numeric c || c == '.') = true) :
    dotENVofText (['n', 'a', 'm', 'e', '='] ++ L) =
      Except.ok [(['n', 'a', 'm', 'e'],
        if L.count '.' ≤ 1 then Value.pyFloat L else Value.str L)] ∧
    dotENVget [(['n', 'a', 'm', 'e'],
        if L.count '.' ≤ 1 then Value.pyFloat L else Value.str L)] ['n', 'a', 'm', 'e'] =
      Except.ok (if L.count '.' ≤ 1 then Value.pyFloat L else Value.str L) := by
  obtain ⟨c0, L', rfl⟩ := List.exists_cons_of_ne_nil hL
  have hhead' : is_numeric c0 = true := by simpa using hhead
  have hClen : (['n', 'a', 'm', 'e', '='] ++ c0 :: L').length = L'.length + 6 := by
    simp
  have hbridge : tokenizeDotENV (['n', 'a', 'm', 'e', '='] ++ c0 :: L') =
      exBind (exBind (tokenizeGo (['n', 'a', 'm', 'e', '='] ++ c0 :: L') (L'.length + 5) 5)
          (fun toks => Except.ok (⟨TokenKind.Equal, ['=']⟩ :: toks)))
        (fun toks => Except.ok (⟨TokenKind.ENV, ['n', 'a', 'm', 'e']⟩ :: toks)) := rfl
  have hdrop : (['n', 'a', 'm', 'e', '='] ++ c0 :: L').drop 5 = c0 :: L' := rfl
  have hnum : parser_number (['n', 'a', 'm', 'e', '='] ++ c0 :: L') 5 =
      Except.ok (⟨if (c0 :: L').count '.' > 1 then TokenKind.Text else TokenKind.Number,
        c0 :: L'⟩, (['n', 'a', 'm', 'e', '='] ++ c0 :: L').length) :=
    parser_number_run _ 5 c0 L' hdrop (by simp; omega) hall
  have hstep : tokenizeGo (['n', 'a', 'm', 'e', '='] ++ c0 :: L') (L'.length + 5) 5 =
      Except.ok [⟨if (c0 :: L').count '.' > 1 then TokenKind.Text else TokenKind.Number,
        c0 :: L'⟩] := by
    rw [show L'.length + 5 = (L'.length + 4) + 1 from rfl]
    rw [tokenizeGo]
    rw [if_pos (by omega)]
    rw [show (['n', 'a', 'm', 'e', '='] ++ c0 :: L').getD 5 ' ' = c0 from rfl]
    rw [if_pos hhead']
    rw [hnum, exBind_ok]
    rw [show L'.length + 4 = (L'.length + 3) + 1 from rfl]
    rw [tokenizeGo_end _ _ _ (by omega)]
    rfl
  constructor
  · rw [dotENVofText, hbridge, hstep]
    by_cases hcnt : (c0 :: L').count '.' ≤ 1
    · rw [if_pos hcnt, if_neg (by omega)]
      rfl
    · rw [if_neg hcnt, if_pos (by omega)]
      rfl
  · by_cases hcnt : (c0 :: L').count '.' ≤ 1
    · rw [if_pos hcnt]
      rfl
    · rw [if_neg hcnt]
      rfl

/-- Claim C7, witness (the literal `1.2.3` has two dots and stays text). -/
theorem c7_numeric_line_value_witness :
    dotENVofText (['n', 'a', 'm', 'e', '='] ++ ['1', '.', '2', '.', '3']) =
      Except.ok [(['n', 'a', 'm', 'e'],
        if (['1', '.', '2', '.', '3'] : Str).count '.' ≤ 1
        then Value.pyFloat ['1', '.', '2', '.', '3']
        else Value.str ['1', '.', '2', '.', '3'])] ∧
    dotENVget [(['n', 'a', 'm', 'e'],
        if (['1', '.', '2', '.', '3'] : Str).count '.' ≤ 1
        then Value.pyFloat ['1', '.', '2', '.', '3']
        else Value.str ['1', '.', '2', '.', '3'])] ['n', 'a', 'm', 'e'] =
      Except.ok (if (['1', '.', '2', '.', '3'] : Str).count '.' ≤ 1
        then Value.pyFloat ['1', '.', '2', '.', '3']
        else Value.str ['1', '.', '2', '.', '3']) :=
  c7_numeric_line_value ['1', '.', '2', '.', '3'] (by decide) (by decide) (by decide)

/-- Claim C8.  Flattening the single-branch structure built by
`nest(p, v, d)` with the same delimiter yields exactly the single pair
`(p, v)`, for every nonempty delimiter `d`, every nonempty path `p` whose
first segment is nonempty (`p` does not begin with the delimiter — this
holds for every delimiter-joined path with nonempty, delimiter-free
segments), and every leaf value `v`. -/
theorem c8_flatten_nest_roundtrip (d p : Str) (v : Value) (hd : d ≠ []) (hp : p ≠ [])
    (hpre : d.isPrefixOf p = false) (hv : isLeaf v = true) :
    flattenV d (nest d p v) [] = [(p, v)] := by
  obtain ⟨c, rest, rfl⟩ := List.exists_cons_of_ne_nil hp
  have hemp : d.isEmpty = false := by
    cases d with
    | nil => exact absurd rfl hd
    | cons x xs => rfl
  have hsplit1 : pySplit d (c :: rest) = pySplitGo d (rest.length + 1) [c] rest := by
    rw [pySplit, hemp]
    simp only [Bool.false_eq_true, if_false]
    rw [pySplitGo, if_neg (by rw [hpre]; simp)]
    rfl
  obtain ⟨q, qs, hq⟩ := pySplitGo_shape d (rest.length + 1) [c] rest
  simp only [List.reverse_cons, List.reverse_nil, List.nil_append,
    List.singleton_append] at hq
  have hsplit : pySplit d (c :: rest) = (c :: q) :: qs := hsplit1.trans hq
  rw [nest, hsplit]
  rw [flatten_nestChain_root d v hv qs (c :: q) (by simp)]
  have hint : List.intercalate d ((c :: q) :: qs) = c :: rest := by
    rw [← hsplit]
    exact intercalate_pySplit d (c :: rest) hd
  rw [hint]

/-- Claim C8, witness. -/
theorem c8_flatten_nest_roundtrip_witness :
    flattenV ['_'] (nest ['_'] ['a', '_', 'b'] (Value.pyInt 7)) [] =
      [(['a', '_', 'b'], Value.pyInt 7)] :=
  c8_flatten_nest_roundtrip ['_'] ['a', '_', 'b'] (Value.pyInt 7)
    (by decide) (by decide) (by decide) (by decide)

/-- Claim C9, counterexample.  The character U+00E9 (`é`, code point 233) is
above the ASCII range but is NOT treated as a letter (`is_letter` requires
code point at least 255), and lexing it produces no Identifier token at all:
it is silently skipped. -/
theorem c9_counterexample_latin1_letter_skipped :
    tokenizeDotENV [Char.ofNat 233] = Except.ok [] ∧
    is_letter (Char.ofNat 233) = false := ⟨rfl, rfl⟩

/-- Claim C9, amended.  Only a leading character with code point at least
255 (or an ASCII letter) is treated permissively as a letter; a character
with code point 128 through 254 is not a letter and is silently skipped by
the lexer with no token emitted. -/
theorem c9_letter_threshold_at_255 (c : Char) :
    (128 ≤ c.toNat → c.toNat ≤ 254 →
      is_letter c = false ∧ tokenizeDotENV [c] = Except.ok []) ∧
    (255 ≤ c.toNat → is_letter c = true) := by
  constructor
  · intro h1 h2
    have hz : ¬ (c ≤ 'z') := by
      intro hle
      rw [show (c ≤ 'z') ↔ c.toNat ≤ 122 from Iff.rfl] at hle
      omega
    have hZ : ¬ (c ≤ 'Z') := by
      intro hle
      rw [show (c ≤ 'Z') ↔ c.toNat ≤ 90 from Iff.rfl] at hle
      omega
    have h9 : ¬ (c ≤ '9') := by
      intro hle
      rw [show (c ≤ '9') ↔ c.toNat ≤ 57 from Iff.rfl] at hle
      omega
    have h255 : ¬ (Char.ofNat 255 ≤ c) := by
      intro hle
      rw [show (Char.ofNat 255 ≤ c) ↔ 255 ≤ c.toNat from Iff.rfl] at hle
      omega
    have hletter : is_letter c = false := by
      simp [is_letter, decide_eq_false hz, decide_eq_false hZ, decide_eq_false h255]
    refine ⟨hletter, ?_⟩
    have hnum : is_numeric c = false := by
      simp [is_numeric, decide_eq_false h9]
    have w1 : (c == '\n') = false :=
      char_beq_false (by rw [show ('\n').toNat = 10 from rfl]; omega)
    have w2 : (c == ' ') = false :=
      char_beq_false (by rw [show (' ').toNat = 32 from rfl]; omega)
    have w3 : (c == '\r') = false :=
      char_beq_false (by rw [show ('\r').toNat = 13 from rfl]; omega)
    have w4 : (c == '\t') = false :=
      char_beq_false (by rw [show ('\t').toNat = 9 from rfl]; omega)
    have hws : is_whitespace c = false := by
      simp [is_whitespace, w1, w2, w3, w4]
    have e1 : (c == '#') = false :=
      char_beq_false (by rw [show ('#').toNat = 35 from rfl]; omega)
    have e2 : (c == '"') = false :=
      char_beq_false (by rw [show ('"').toNat = 34 from rfl]; omega)
    have e3 : (c == singleQuoteCh) = false :=
      char_beq_false (by rw [show singleQuoteCh.toNat = 39 from rfl]; omega)
    have e4 : (c == rawQuote) = false :=
      char_beq_false (by rw [show rawQuote.toNat = 96 from rfl]; omega)
    have e5 : (c == '[') = false :=
      char_beq_false (by rw [show ('[').toNat = 91 from rfl]; omega)
    have e6 : (c == ']') = false :=
      char_beq_false (by rw [show (']').toNat = 93 from rfl]; omega)
    have e7 : (c == '{') = false :=
      char_beq_false (by rw [show ('{').toNat = 123 from rfl]; omega)
    have e8 : (c == ',') = false :=
      char_beq_false (by rw [show (',').toNat = 44 from rfl]; omega)
    have e9 : (c == '=') = false :=
      char_beq_false (by rw [show ('=').toNat = 61 from rfl]; omega)
    show tokenizeGo [c] (List.length [c] + 1) 0 = Except.ok []
    rw [show List.length [c] + 1 = 1 + 1 from rfl]
    rw [tokenizeGo]
    simp only [List.length_singleton, Nat.zero_lt_one, if_true, List.getD_cons_zero,
      hnum, hletter, hws, e1, e2, e3, e4, e5, e6, e7, e8, e9, Bool.false_eq_true, if_false,
      Bool.or_self]
    rw [tokenizeGo]
    simp
  · intro h1
    have hle : Char.ofNat 255 ≤ c := by
      rw [show (Char.ofNat 255 ≤ c) ↔ 255 ≤ c.toNat from Iff.rfl]
      omega
    simp [is_letter, decide_eq_true hle]

/-- Claim C9, witness. -/
theorem c9_letter_threshold_at_255_witness :
    (is_letter (Char.ofNat 200) = false ∧
      tokenizeDotENV [Char.ofNat 200] = Except.ok []) ∧
    is_letter (Char.ofNat 256) = true :=
  ⟨(c9_letter_threshold_at_255 (Char.ofNat 200)).1 (by decide) (by decide),
    (c9_letter_threshold_at_255 (Char.ofNat 256)).2 (by decide)⟩

/-- Claim C10.  Array collection ends at the first subsequent Bracket token
of either direction: for the token sequence of `a=[1,[2],3]` (with the name
and the three number literals arbitrary), the sequence assigned to the
target holds only the element seen before the inner `[`, and the remaining
tokens are reprocessed outside that collection (the second collection they
form has no pending target and is discarded), leaving exactly the one
binding. -/
theorem c10_array_collection_stops_at_any_bracket (n v1 v2 v3 : Str) (hn : n ≠ []) :
    parserRun [⟨TokenKind.ENV, n⟩, ⟨TokenKind.Equal, ['=']⟩, ⟨TokenKind.Brackets, ['[']⟩,
        ⟨TokenKind.Number, v1⟩, ⟨TokenKind.Commas, [',']⟩, ⟨TokenKind.Brackets, ['[']⟩,
        ⟨TokenKind.Number, v2⟩, ⟨TokenKind.Brackets, [']']⟩, ⟨TokenKind.Commas, [',']⟩,
        ⟨TokenKind.Number, v3⟩, ⟨TokenKind.Brackets, [']']⟩] =
      Except.ok [(n, Value.arr [Value.pyFloat v1])] := by
  obtain ⟨c, cs, rfl⟩ := List.exists_cons_of_ne_nil hn
  rfl

/-- Claim C10, witness. -/
theorem c10_array_collection_stops_at_any_bracket_witness :
    parserRun [⟨TokenKind.ENV, ['a']⟩, ⟨TokenKind.Equal, ['=']⟩, ⟨TokenKind.Brackets, ['[']⟩,
        ⟨TokenKind.Number, ['1']⟩, ⟨TokenKind.Commas, [',']⟩, ⟨TokenKind.Brackets, ['[']⟩,
        ⟨TokenKind.Number, ['2']⟩, ⟨TokenKind.Brackets, [']']⟩, ⟨TokenKind.Commas, [',']⟩,
        ⟨TokenKind.Number, ['3']⟩, ⟨TokenKind.Brackets, [']']⟩] =
      Except.ok [(['a'], Value.arr [Value.pyFloat ['1']])] :=
  c10_array_collection_stops_at_any_bracket ['a'] ['1'] ['2'] ['3'] (by decide)

end DotEnvPy
